import Mathlib

/-!
Verification of the poll-dedupe-forward pipeline of github-notify-to-tg.

The embedding models the program's core from src/main.rs and src/db.rs:
the dedup store semantics (SQL membership table with insert-or-ignore),
the dispatch loop of poll_once, the watermark update in main's scheduler
loop, the connection-string dispatch of connect_store, and the paginated
fetch loop of fetch_notifications.

External effects (the GitHub API, the Telegram sink, the SQL backends'
connectivity) are modelled by oracles: a response function for page
requests and boolean success oracles for store queries, store writes and
Telegram sends.  Timestamps are modelled as integers (seconds), matching
the one-second granularity used by the watermark arithmetic.
-/

namespace NotifyTg

/-- A GitHub notification as consumed by the pipeline: the thread id
(stringified, as in main.rs line 138), the unread flag and the updated-at
timestamp.  Fields not used by the dispatch logic (repository, subject,
reason) are omitted. -/
structure Notification where
  id : String
  unread : Bool
  updated_at : Int
  deriving Repr, DecidableEq

/-- Membership test of the sent_notifications table: models the query
SELECT 1 FROM sent_notifications WHERE id = ? LIMIT 1 (db.rs lines 64-75
for sqlite, 104-115 for postgres), with the table as a list of ids. -/
def isSentIds (store : List String) (id : String) : Bool :=
  store.contains id

/-- Insert-or-ignore into the sent_notifications table: models
INSERT OR IGNORE (db.rs line 78, sqlite) and
INSERT ... ON CONFLICT (id) DO NOTHING (db.rs line 119, postgres).
The id column is the primary key, so a present id is left unchanged. -/
def markSentIds (store : List String) (id : String) : List String :=
  if store.contains id then store else store ++ [id]

/-- Success oracles for the effectful calls made by the dispatch loop:
whether the is_sent query succeeds, whether the Telegram send succeeds,
and whether the mark_sent write succeeds, per notification id. -/
structure WorldOps where
  queryOk : String → Bool
  sendOk : String → Bool
  markOk : String → Bool

/-- Oracle under which every external call succeeds. -/
def allOk : WorldOps :=
  { queryOk := fun _ => true, sendOk := fun _ => true, markOk := fun _ => true }

/-- Oracle under which the Telegram send fails exactly for id "a" and
every other external call succeeds. -/
def opsSendFailA : WorldOps :=
  { queryOk := fun _ => true, sendOk := fun id => id != "a", markOk := fun _ => true }

/-- State threaded through a poll cycle: the dedup store contents, the
sent_count counter of poll_once (main.rs line 135), and the trace of ids
for which a Telegram send was attempted. -/
structure DispatchState where
  store : List String
  sent_count : Nat
  attempts : List String
  deriving Repr, DecidableEq

/-- One iteration of the dispatch loop body (main.rs lines 137-156).
The Except models error propagation by the question-mark operator: a
failed is_sent query or a failed mark_sent write aborts poll_once with
the side effects so far, while a failed Telegram send merely continues
with the next notification (lines 149-152). -/
def dispatchStep (ops : WorldOps) (s : DispatchState) (n : Notification) :
    Except DispatchState DispatchState :=
  if !n.unread then
    .ok s
  else if !(ops.queryOk n.id) then
    .error s
  else if isSentIds s.store n.id then
    .ok s
  else
    let s1 : DispatchState := { s with attempts := s.attempts ++ [n.id] }
    if !(ops.sendOk n.id) then
      .ok s1
    else if !(ops.markOk n.id) then
      .error s1
    else
      .ok { s1 with
            store := markSentIds s1.store n.id,
            sent_count := s1.sent_count + 1 }

/-- The dispatch loop of poll_once (main.rs lines 137-156): fold
dispatchStep over the sorted notification list, stopping at the first
propagated store error. -/
def dispatchList (ops : WorldOps) :
    List Notification → DispatchState → Except DispatchState DispatchState
  | [], s => .ok s
  | n :: rest, s =>
    match dispatchStep ops s n with
    | .ok s1 => dispatchList ops rest s1
    | .error s1 => .error s1

/-- The state carried out of the loop, whether it finished or aborted. -/
def carried : Except DispatchState DispatchState → DispatchState
  | .ok s => s
  | .error s => s

/-- The comparator passed to sort_by in poll_once (main.rs lines
125-133): Equal on equal timestamps, Less when strictly smaller,
Greater otherwise. -/
def cmpByUpdated (a b : Notification) : Ordering :=
  if a.updated_at = b.updated_at then .eq
  else if a.updated_at < b.updated_at then .lt
  else .gt

/-- The boolean order corresponding to cmpByUpdated: a before-or-equal b
exactly when the comparator does not answer Greater. -/
def notifLE (a b : Notification) : Bool :=
  a.updated_at ≤ b.updated_at

/-- Vec::sort_by is a stable sort; it is modelled by stable merge sort
with the order induced by cmpByUpdated. -/
def sortNotifications (ns : List Notification) : List Notification :=
  ns.mergeSort notifLE

/-- latest_seen of poll_once (main.rs line 123): the maximum updated-at
over the entire fetched list, None exactly on an empty list, computed
before sorting or filtering. -/
def latestSeen (ns : List Notification) : Option Int :=
  (ns.map (fun n => n.updated_at)).max?

/-- poll_once (main.rs lines 112-163) for a fetched batch ns: compute
latest_seen over the whole batch, sort, run the dispatch loop, and
return latest_seen on success.  A store error aborts with the state
reached so far (fetch itself is modelled as already done: ns is the
fetched batch). -/
def poll_once (ops : WorldOps) (ns : List Notification) (s : DispatchState) :
    Except DispatchState (DispatchState × Option Int) :=
  let latest := latestSeen ns
  match dispatchList ops (sortNotifications ns) s with
  | .ok s1 => .ok (s1, latest)
  | .error s1 => .error s1

/-- The watermark update in main's scheduler loop (main.rs lines 59-69):
on Ok(Some ts) the cursor becomes ts minus one second; on Ok(None) and on
Err the cursor is left unchanged. -/
def schedulerStep (cursor : Option Int)
    (result : Except DispatchState (DispatchState × Option Int)) : Option Int :=
  match result with
  | .ok (_, some ts) => some (ts - 1)
  | .ok (_, none) => cursor
  | .error _ => cursor

/-- The backend chosen by connect_store. -/
inductive StoreChoice where
  | postgres
  | sqlite
  deriving Repr, DecidableEq

/-- Rust str::starts_with on the underlying character lists.
String.startsWith has the same behaviour but its substrEq loop is
opaque to kernel reduction, so the prefix test is stated structurally. -/
def starts_with (s p : String) : Bool :=
  p.data.isPrefixOf s.data

/-- Scheme dispatch of connect_store (db.rs lines 23-46): a
postgres:// or postgresql:// string selects the networked engine, a
sqlite:// string selects the embedded engine, and anything else hits
the bail at line 45 (modelled as none) before any connection attempt. -/
def connect_store (database_url : String) : Option StoreChoice :=
  if starts_with database_url "postgres://"
      || starts_with database_url "postgresql://" then
    some .postgres
  else if starts_with database_url "sqlite://" then
    some .sqlite
  else
    none

/-- A page request as built in fetch_notifications (main.rs lines
173-184): the all and participating flags, the page size, the page
number, and the optional since watermark (set exactly when the cursor
is present). -/
structure NotifRequest where
  all : Bool
  participating : Bool
  per_page : Nat
  page : Nat
  since : Option Int
  deriving Repr, DecidableEq

/-- The request issued for a given page: all(false), participating(false),
per_page(50), page(page), and since set from the cursor when present
(main.rs lines 173-184). -/
def mkRequest (since : Option Int) (page : Nat) : NotifRequest :=
  { all := false
    participating := false
    per_page := 50
    page := page
    since := since }

/-- The fetch loop of fetch_notifications (main.rs lines 172-199),
with a response oracle in place of the GitHub API.  The page counter is
a u8 starting at 1 and incremented by one per iteration, so the source
condition page == u8::MAX coincides with 255 <= page on every reachable
page value; the latter form makes termination structural. -/
def fetchGo (respond : NotifRequest → List Notification) (since : Option Int) :
    Nat → List Notification → List NotifRequest →
    List Notification × List NotifRequest
  | page, acc, reqs =>
    let items := respond (mkRequest since page)
    let acc1 := acc ++ items
    let reqs1 := reqs ++ [mkRequest since page]
    if h : items.length < 50 ∨ 255 ≤ page then
      (acc1, reqs1)
    else
      fetchGo respond since (page + 1) acc1 reqs1
  termination_by page _ _ => 255 - page
  decreasing_by
    simp only [not_or, Nat.not_le, Nat.not_lt] at h
    omega

/-- fetch_notifications (main.rs lines 165-202): run the fetch loop from
page 1 with empty accumulators, returning the concatenated items and the
trace of requests issued. -/
def fetch_notifications (respond : NotifRequest → List Notification)
    (since : Option Int) : List Notification × List NotifRequest :=
  fetchGo respond since 1 [] []

/-! Helper lemmas shared by the claim theorems. -/

/-- The order used by the sort is transitive. -/
theorem notifLE_trans (a b c : Notification) :
    notifLE a b → notifLE b c → notifLE a c := by
  simp [notifLE]
  omega

/-- The order used by the sort is total. -/
theorem notifLE_total (a b : Notification) : notifLE a b || notifLE b a := by
  simp [notifLE]
  omega

/-- Characterisation of List.max? over integers: it returns exactly an
attained upper bound. -/
theorem max?_int_eq_some_iff (xs : List Int) (v : Int) :
    xs.max? = some v ↔ v ∈ xs ∧ ∀ x ∈ xs, x ≤ v := by
  haveI : Std.Antisymm ((· : Int) ≤ ·) := ⟨fun h h2 => le_antisymm h h2⟩
  exact List.max?_eq_some_iff (fun a => le_refl a) (fun a b => max_choice a b)
    (fun a b c => max_le_iff)

/-- Read notifications are inert for the dispatch loop: dropping them
from the batch changes nothing. -/
theorem dispatchList_filter_unread (ops : WorldOps) :
    ∀ (ns : List Notification) (s : DispatchState),
      dispatchList ops ns s
        = dispatchList ops (ns.filter fun x => x.unread) s := by
  intro ns
  induction ns with
  | nil =>
    intro s
    rfl
  | cons n rest ih =>
    intro s
    by_cases hu : n.unread
    · rw [List.filter_cons_of_pos (by simpa using hu)]
      simp only [dispatchList]
      cases hstep : dispatchStep ops s n with
      | ok s1 => exact ih s1
      | error s1 => rfl
    · have hstep : dispatchStep ops s n = .ok s := by
        have hu2 : n.unread = false := by simpa using hu
        simp [dispatchStep, hu2]
      rw [List.filter_cons_of_neg (by simpa using hu)]
      simp only [dispatchList, hstep]
      exact ih s

/-- Structure of the fetch loop from an arbitrary starting page: it
requests consecutive pages up to a stopping page k, concatenates the
responses in order, and stops exactly at the first short page or at the
hard cap 255. -/
theorem fetchGo_spec (respond : NotifRequest → List Notification) (since : Option Int) :
    ∀ (fuel page : Nat) (acc : List Notification) (reqs : List NotifRequest),
      page + fuel = 255 →
      ∃ k, page ≤ k ∧ k ≤ 255 ∧
        (fetchGo respond since page acc reqs).2
          = reqs ++ (List.range' page (k + 1 - page)).map (mkRequest since) ∧
        (fetchGo respond since page acc reqs).1
          = acc ++ ((List.range' page (k + 1 - page)).map
              (fun p => respond (mkRequest since p))).flatten ∧
        ((respond (mkRequest since k)).length < 50 ∨ k = 255) ∧
        (∀ j, page ≤ j → j < k → 50 ≤ (respond (mkRequest since j)).length) := by
  intro fuel
  induction fuel with
  | zero =>
    intro page acc reqs hpf
    have hp : page = 255 := by omega
    subst hp
    have hstep : fetchGo respond since 255 acc reqs
        = (acc ++ respond (mkRequest since 255), reqs ++ [mkRequest since 255]) := by
      rw [fetchGo]
      simp
    refine ⟨255, le_refl _, le_refl _, ?_, ?_, Or.inr rfl, ?_⟩
    · rw [hstep]
      simp
    · rw [hstep]
      simp
    · intro j h1 h2
      omega
  | succ fuel ih =>
    intro page acc reqs hpf
    have hlt : page < 255 := by omega
    by_cases hlen : (respond (mkRequest since page)).length < 50
    · have hstep : fetchGo respond since page acc reqs
          = (acc ++ respond (mkRequest since page), reqs ++ [mkRequest since page]) := by
        rw [fetchGo]
        simp [hlen]
      refine ⟨page, le_refl _, by omega, ?_, ?_, Or.inl hlen, ?_⟩
      · rw [hstep]
        simp
      · rw [hstep]
        simp
      · intro j h1 h2
        omega
    · have hstep : fetchGo respond since page acc reqs
          = fetchGo respond since (page + 1) (acc ++ respond (mkRequest since page))
              (reqs ++ [mkRequest since page]) := by
        rw [fetchGo]
        simp [hlen, Nat.not_le.mpr hlt]
      obtain ⟨k, hk1, hk2, hreq, hacc, hstop, hall⟩ :=
        ih (page + 1) (acc ++ respond (mkRequest since page))
          (reqs ++ [mkRequest since page]) (by omega)
      have hrange : List.range' page (k + 1 - page)
          = page :: List.range' (page + 1) (k + 1 - (page + 1)) := by
        have h1 : k + 1 - page = (k + 1 - (page + 1)) + 1 := by omega
        rw [h1, List.range'_succ]
      refine ⟨k, by omega, hk2, ?_, ?_, hstop, ?_⟩
      · rw [hstep, hreq, hrange]
        simp
      · rw [hstep, hacc, hrange]
        simp
      · intro j hj1 hj2
        rcases Nat.eq_or_lt_of_le hj1 with heq | hlt2
        · subst heq
          exact Nat.le_of_not_lt hlen
        · exact hall j hlt2 hj2

/-- C1: For every fetched batch, the max updated-at value returned by a
successful poll cycle equals the maximum updated-at over the entire
fetched list - it is attained by a fetched notification and bounds all
of them, with no reference to unread flags, dedup state or forwarding
outcome - and it is absent exactly when the fetched list is empty. -/
theorem latest_seen_is_batch_max (ops : WorldOps) (ns : List Notification)
    (s s1 : DispatchState) (m : Option Int)
    (h : poll_once ops ns s = .ok (s1, m)) :
    (m = none ↔ ns = []) ∧
    ∀ v, m = some v →
      (∃ n ∈ ns, n.updated_at = v) ∧ ∀ n ∈ ns, n.updated_at ≤ v := by
  have hm : m = latestSeen ns := by
    unfold poll_once at h
    cases hd : dispatchList ops (sortNotifications ns) s with
    | ok s2 =>
      rw [hd] at h
      simp only [Except.ok.injEq, Prod.mk.injEq] at h
      exact h.2.symm
    | error s2 =>
      rw [hd] at h
      simp at h
  subst hm
  unfold latestSeen
  constructor
  · rw [List.max?_eq_none_iff]
    simp
  · intro v hv
    rw [max?_int_eq_some_iff] at hv
    obtain ⟨hmem, hub⟩ := hv
    refine ⟨?_, ?_⟩
    · obtain ⟨n, hn, he⟩ := List.mem_map.mp hmem
      exact ⟨n, hn, he⟩
    · intro n hn
      exact hub _ (List.mem_map_of_mem _ hn)

/-- Witness for C1 at a concrete successful cycle. -/
theorem latest_seen_is_batch_max_witness :
    ((some (5:Int) = none ↔ ([⟨"1", true, 5⟩] : List Notification) = []) ∧
     ∀ v, some (5:Int) = some v →
       (∃ n ∈ ([⟨"1", true, 5⟩] : List Notification), n.updated_at = v) ∧
       ∀ n ∈ ([⟨"1", true, 5⟩] : List Notification), n.updated_at ≤ v) :=
  latest_seen_is_batch_max allOk [⟨"1", true, 5⟩] ⟨[], 0, []⟩ ⟨["1"], 1, ["1"]⟩
    (some 5)
    (by simp [poll_once, sortNotifications, latestSeen, dispatchList,
      dispatchStep, allOk, isSentIds, markSentIds])

/-- C2: A Telegram send is attempted for a notification only if it is
unread and the dedup query succeeded reporting it unsent: read
notifications are inert for the whole loop regardless of dedup state,
and a notification whose id the store already holds is skipped even if
unread. -/
theorem forward_only_unread_unsent (ops : WorldOps) (ns : List Notification)
    (s : DispatchState) (n : Notification) :
    dispatchList ops ns s = dispatchList ops (ns.filter fun x => x.unread) s ∧
    (ops.queryOk n.id = true → isSentIds s.store n.id = true →
      dispatchStep ops s n = .ok s) ∧
    ((carried (dispatchStep ops s n)).attempts ≠ s.attempts →
      n.unread = true ∧ ops.queryOk n.id = true ∧
        isSentIds s.store n.id = false) := by
  refine ⟨dispatchList_filter_unread ops ns s, ?_, ?_⟩
  · intro hq hs
    by_cases hu : n.unread
    · simp [dispatchStep, hu, hq, hs]
    · have hu2 : n.unread = false := by simpa using hu
      simp [dispatchStep, hu2]
  · intro hne
    by_cases hu : n.unread
    · by_cases hq : ops.queryOk n.id
      · by_cases hs : isSentIds s.store n.id
        · exfalso
          apply hne
          simp [dispatchStep, hu, hq, hs, carried]
        · exact ⟨hu, hq, by simpa using hs⟩
      · exfalso
        apply hne
        have hq2 : ops.queryOk n.id = false := by simpa using hq
        simp [dispatchStep, hu, hq2, carried]
    · exfalso
      apply hne
      have hu2 : n.unread = false := by simpa using hu
      simp [dispatchStep, hu2, carried]

/-- Witness for C2: an unread but already-recorded notification is
skipped with the state unchanged. -/
theorem forward_only_unread_unsent_witness :
    dispatchStep allOk ⟨["1"], 0, []⟩ ⟨"1", true, 7⟩ = .ok ⟨["1"], 0, []⟩ :=
  (forward_only_unread_unsent allOk [] ⟨["1"], 0, []⟩ ⟨"1", true, 7⟩).2.1
    rfl (by decide)

/-- C3: A failed Telegram send leaves the item unmarked and the loop
continues with the remaining notifications; a later item is still
forwarded, marked sent, and the cycle completes.  By contrast a failed
dedup query aborts the remaining dispatch loop at once, so no later
notification is processed. -/
theorem send_failure_continues_query_failure_aborts (ops : WorldOps)
    (s : DispatchState) (a b : Notification) (rest : List Notification) :
    (a.unread = true → ops.queryOk a.id = true → isSentIds s.store a.id = false →
      ops.sendOk a.id = false →
      dispatchList ops (a :: rest) s
        = dispatchList ops rest
            { s with attempts := s.attempts ++ [a.id] }) ∧
    (a.unread = true → ops.queryOk a.id = false →
      dispatchList ops (a :: rest) s = .error s) ∧
    (a.unread = true → ops.queryOk a.id = true → isSentIds s.store a.id = false →
      ops.sendOk a.id = false →
      b.unread = true → ops.queryOk b.id = true → isSentIds s.store b.id = false →
      ops.sendOk b.id = true → ops.markOk b.id = true →
      dispatchList ops [a, b] s
        = .ok ⟨s.store ++ [b.id], s.sent_count + 1, s.attempts ++ [a.id, b.id]⟩ ∧
      isSentIds (s.store ++ [b.id]) b.id = true) := by
  refine ⟨?_, ?_, ?_⟩
  · intro h1 h2 h3 h4
    simp [dispatchList, dispatchStep, h1, h2, h3, h4]
  · intro h1 h2
    simp [dispatchList, dispatchStep, h1, h2]
  · intro h1 h2 h3 h4 h5 h6 h7 h8 h9
    have hc : s.store.contains b.id = false := h7
    have hm : b.id ∉ s.store := by simpa using hc
    constructor
    · simp [dispatchList, dispatchStep, h1, h2, h3, h4, h5, h6, h7, h8, h9,
        markSentIds, hm]
    · simp [isSentIds]

/-- Witness for C3: with the send failing exactly for id "a", item "b"
is still forwarded and marked and the two-item cycle completes. -/
theorem send_failure_continues_query_failure_aborts_witness :
    dispatchList opsSendFailA [⟨"a", true, 1⟩, ⟨"b", true, 2⟩] ⟨[], 0, []⟩
      = .ok ⟨[] ++ ["b"], 0 + 1, [] ++ ["a", "b"]⟩ ∧
    isSentIds ([] ++ ["b"]) "b" = true :=
  (send_failure_continues_query_failure_aborts opsSendFailA ⟨[], 0, []⟩
      ⟨"a", true, 1⟩ ⟨"b", true, 2⟩ []).2.2
    rfl rfl rfl (by decide) rfl rfl rfl (by decide) rfl

/-- C4: Evaluation of connect_store at the claim's inputs.  The
postgres, postgresql and sqlite path forms and the ftp rejection behave
as claimed, but the in-memory form sqlite::memory: does not start with
sqlite:// and therefore hits the unsupported-scheme bail, although
ensure_sqlite_parent_dir (db.rs line 131) special-cases exactly that
string and is unreachable for it: the code rejects an input its own
in-memory handling was written for. -/
theorem connect_store_scheme_dispatch :
    connect_store "sqlite::memory:" = none ∧
    connect_store "sqlite://./data/notify.db" = some StoreChoice.sqlite ∧
    connect_store "postgres://host/db" = some StoreChoice.postgres ∧
    connect_store "postgresql://host/db" = some StoreChoice.postgres ∧
    connect_store "ftp://host" = none := by
  refine ⟨by decide, by decide, by decide, by decide, by decide⟩

/-- C5: After a poll cycle, the watermark becomes the returned max minus
one second when the cycle succeeded with a present max, and is left
unchanged on a successful empty fetch or on a cycle error. -/
theorem watermark_update_cases (cursor : Option Int) (s1 e : DispatchState)
    (ts : Int) :
    schedulerStep cursor (.ok (s1, some ts)) = some (ts - 1) ∧
    schedulerStep cursor (.ok (s1, none)) = cursor ∧
    schedulerStep cursor (.error e) = cursor :=
  ⟨rfl, rfl, rfl⟩

/-- C6 counterexample: with watermark 5 and a successful cycle whose
only fetched notification is updated at 5 - at, hence not before, the
watermark, as the claim's hypothesis demands - the new watermark is 4,
strictly below the old one: the minus-one-second backoff makes the
watermark decrease at the boundary. -/
theorem watermark_decrease_counterexample :
    (5:Int) ≤ Notification.updated_at ⟨"1", true, 5⟩ ∧
    poll_once allOk [⟨"1", true, 5⟩] ⟨[], 0, []⟩
      = .ok (⟨["1"], 1, ["1"]⟩, some 5) ∧
    schedulerStep (some 5) (poll_once allOk [⟨"1", true, 5⟩] ⟨[], 0, []⟩)
      = some 4 ∧
    (4:Int) < 5 := by
  refine ⟨le_refl 5, ?_, ?_, by norm_num⟩
  · simp [poll_once, sortNotifications, latestSeen, dispatchList, dispatchStep,
      allOk, isSentIds, markSentIds]
  · simp [poll_once, sortNotifications, latestSeen, dispatchList, dispatchStep,
      allOk, isSentIds, markSentIds, schedulerStep]

/-- C6 (amended): when every fetched notification is updated strictly
after the watermark - by at least the one-second granularity of the
timestamps - the watermark after the cycle is at least the watermark
before it, whatever the cycle outcome. -/
theorem watermark_monotone_of_strictly_newer (ops : WorldOps)
    (ns : List Notification) (s : DispatchState) (w : Int)
    (h : ∀ n ∈ ns, w < n.updated_at) :
    ∃ w2, schedulerStep (some w) (poll_once ops ns s) = some w2 ∧ w ≤ w2 := by
  cases hd : dispatchList ops (sortNotifications ns) s with
  | ok s1 =>
    have hres : poll_once ops ns s = .ok (s1, latestSeen ns) := by
      simp [poll_once, hd]
    rw [hres]
    cases hls : latestSeen ns with
    | none => exact ⟨w, rfl, le_refl w⟩
    | some ts =>
      refine ⟨ts - 1, rfl, ?_⟩
      have hmem : ts ∈ ns.map (fun n => n.updated_at) :=
        List.max?_mem (fun a b => max_choice a b) hls
      obtain ⟨n, hn, he⟩ := List.mem_map.mp hmem
      have hw := h n hn
      omega
  | error s1 =>
    have hres : poll_once ops ns s = .error s1 := by
      simp [poll_once, hd]
    rw [hres]
    exact ⟨w, rfl, le_refl w⟩

/-- Witness for the amended C6 at a concrete strictly-newer batch. -/
theorem watermark_monotone_of_strictly_newer_witness :
    ∃ w2, schedulerStep (some 3) (poll_once allOk [⟨"1", true, 5⟩] ⟨[], 0, []⟩)
        = some w2 ∧ (3:Int) ≤ w2 :=
  watermark_monotone_of_strictly_newer allOk [⟨"1", true, 5⟩] ⟨[], 0, []⟩ 3
    (by decide)

/-- C7: The processed list is a permutation of the fetched batch sorted
non-decreasingly by updated-at, and the sort is stable: any two batch
elements with equal updated-at keep their original relative order. -/
theorem dispatch_order_sorted_stable (ns : List Notification) :
    List.Perm (sortNotifications ns) ns ∧
    (sortNotifications ns).Pairwise (fun a b => a.updated_at ≤ b.updated_at) ∧
    ∀ a b : Notification, a.updated_at = b.updated_at →
      List.Sublist [a, b] ns → List.Sublist [a, b] (sortNotifications ns) := by
  refine ⟨List.mergeSort_perm ns notifLE, ?_, ?_⟩
  · exact (@List.sorted_mergeSort Notification notifLE
      (fun a b c hab hbc => notifLE_trans a b c hab hbc)
      (fun a b => notifLE_total a b) ns).imp
      (fun hab => by simpa [notifLE] using hab)
  · intro a b heq hsub
    exact List.pair_sublist_mergeSort
      (fun a b c hab hbc => notifLE_trans a b c hab hbc)
      (fun a b => notifLE_total a b)
      (by simp [notifLE, heq]) hsub

/-- Witness for C7: a concrete tie keeps its original order through the
sort. -/
theorem dispatch_order_sorted_stable_witness :
    List.Sublist [⟨"x", true, 5⟩, ⟨"y", false, 5⟩]
      (sortNotifications [⟨"x", true, 5⟩, ⟨"y", false, 5⟩]) :=
  (dispatch_order_sorted_stable [⟨"x", true, 5⟩, ⟨"y", false, 5⟩]).2.2
    ⟨"x", true, 5⟩ ⟨"y", false, 5⟩ rfl (List.Sublist.refl _)

/-- C8: The fetch retrieves pages 1 through a stopping page k of fixed
size 50, issuing exactly k page requests with k at most 255, returns the
concatenation of the page results in order, and k is exactly the first
page that is short or the hard cap 255. -/
theorem fetch_pagination_bounded (respond : NotifRequest → List Notification)
    (since : Option Int) :
    ∃ k, 1 ≤ k ∧ k ≤ 255 ∧
      (fetch_notifications respond since).2
        = (List.range' 1 k).map (mkRequest since) ∧
      (fetch_notifications respond since).2.length = k ∧
      (fetch_notifications respond since).1
        = ((List.range' 1 k).map
            (fun p => respond (mkRequest since p))).flatten ∧
      ((respond (mkRequest since k)).length < 50 ∨ k = 255) ∧
      ∀ j, 1 ≤ j → j < k → 50 ≤ (respond (mkRequest since j)).length := by
  obtain ⟨k, hk1, hk2, hreq, hacc, hstop, hall⟩ :=
    fetchGo_spec respond since 254 1 [] [] (by norm_num)
  simp only [Nat.add_sub_cancel, List.nil_append] at hreq hacc
  refine ⟨k, hk1, hk2, hreq, ?_, hacc, hstop, hall⟩
  rw [show (fetch_notifications respond since).2
      = (fetchGo respond since 1 [] []).2 from rfl, hreq]
  simp

/-- Witness for C8 at a concrete one-page feed. -/
theorem fetch_pagination_bounded_witness :
    ∃ k, 1 ≤ k ∧ k ≤ 255 ∧
      (fetch_notifications (fun _ => ([] : List Notification)) none).2
        = (List.range' 1 k).map (mkRequest none) ∧
      (fetch_notifications (fun _ => ([] : List Notification)) none).2.length
        = k ∧
      (fetch_notifications (fun _ => ([] : List Notification)) none).1
        = ((List.range' 1 k).map
            (fun _ => ([] : List Notification))).flatten ∧
      (([] : List Notification).length < 50 ∨ k = 255) ∧
      ∀ j, 1 ≤ j → j < k → 50 ≤ ([] : List Notification).length :=
  fetch_pagination_bounded (fun _ => []) none

/-- C9: A successful markSent makes isSent true, and markSent is
idempotent: marking an already-recorded id is a no-op rather than an
error, and marking preserves the at-most-once invariant of the
membership table. -/
theorem mark_sent_idempotent (store : List String) (id : String) :
    isSentIds (markSentIds store id) id = true ∧
    markSentIds (markSentIds store id) id = markSentIds store id ∧
    (store.contains id = true → markSentIds store id = store) ∧
    (store.Nodup → (markSentIds store id).Nodup) := by
  by_cases h : store.contains id = true
  · have hmem : id ∈ store := by simpa using h
    refine ⟨by simp [markSentIds, isSentIds, hmem], by simp [markSentIds, hmem],
      fun _ => by simp [markSentIds, hmem],
      fun hn => by simpa [markSentIds, hmem] using hn⟩
  · have h2 : store.contains id = false := by simpa using h
    have hm : id ∉ store := by simpa using h2
    refine ⟨?_, ?_, ?_, ?_⟩
    · simp [markSentIds, isSentIds, hm]
    · simp [markSentIds, hm]
    · intro hc
      rw [hc] at h2
      cases h2
    · intro hn
      simp [markSentIds, hm, List.nodup_append]
      exact hn

/-- Witness for C9: re-marking a recorded id is a no-op, and marking a
fresh id preserves distinctness. -/
theorem mark_sent_idempotent_witness :
    markSentIds ["a"] "a" = ["a"] ∧ (markSentIds ["a"] "b").Nodup :=
  ⟨(mark_sent_idempotent ["a"] "a").2.2.1 (by decide),
   (mark_sent_idempotent ["a"] "b").2.2.2 (by decide)⟩

/-- C10: Every page request the fetcher issues carries all = false and
participating = false (and page size 50): only unread notifications are
ever requested from the remote source. -/
theorem fetch_requests_only_unread (respond : NotifRequest → List Notification)
    (since : Option Int) :
    ∀ r ∈ (fetch_notifications respond since).2,
      r.all = false ∧ r.participating = false ∧ r.per_page = 50 := by
  intro r hr
  obtain ⟨k, hk1, hk2, hreq, hacc, hstop, hall⟩ :=
    fetchGo_spec respond since 254 1 [] [] (by norm_num)
  rw [show (fetch_notifications respond since).2
      = (fetchGo respond since 1 [] []).2 from rfl, hreq] at hr
  simp only [List.nil_append, List.mem_map] at hr
  obtain ⟨p, hp, hpr⟩ := hr
  rw [← hpr]
  simp [mkRequest]

/-- Witness for C10 at the single request of an empty feed. -/
theorem fetch_requests_only_unread_witness :
    (mkRequest none 1).all = false ∧ (mkRequest none 1).participating = false ∧
      (mkRequest none 1).per_page = 50 :=
  fetch_requests_only_unread (fun _ => []) none (mkRequest none 1)
    (by simp [fetch_notifications, fetchGo])

end NotifyTg
